import Mathlib

/-!
Verification of the danoa interview core: the interview state machine
(`src/bot/interview/interview_agent.py`) and the response-completeness
analyzer (`src/bot/interview/question_analyzer.py`), shallowly embedded
in Lean.  External collaborators (the language-model client used for
completeness analysis and for name/age extraction) are uninterpreted
oracle parameters; everything else is translated from the Python source.
-/

namespace Danoa

/-- Interview states, from `InterviewState` in interview_agent.py. -/
inductive InterviewState where
  | WAITING_FOR_START
  | GETTING_NAME_AGE
  | ASKING_QUESTION
  | FOLLOWING_UP
  | COMPLETED
deriving DecidableEq, Repr

/-- One conversation turn, an element of `conversation_history`
(a Python dict with keys "role" and "content"). -/
structure Msg where
  role : String
  content : String
deriving DecidableEq, Repr

/-- One entry of the static question list, as consumed by
interview_agent.py (`question_data["id"]`, `question_data["question"]`,
`question_data["required_elements"]`). -/
structure QuestionSpec where
  id : String
  question : String
  required_elements : List String
deriving DecidableEq, Repr

/-- Modelled from the spec: the module `interview_questions.py`
(INTRODUCTION, QUESTIONS, COMPLETION_MESSAGE) is imported by
interview_agent.py but absent from src/; the spec describes it as a
static ordered QuestionSpec sequence plus fixed introduction and
completion texts, loaded once and immutable.  We model it as a record
of parameters. -/
structure Config where
  INTRODUCTION : String
  QUESTIONS : List QuestionSpec
  COMPLETION_MESSAGE : String

/-- The analyzer's result dict, from `analyze_response` in
question_analyzer.py. -/
structure AnalysisResult where
  is_complete : Bool
  missing_elements : List String
  mentioned_topics : List String
  feedback : String
deriving DecidableEq, Repr

/-- The final result dict built by `_get_result` in interview_agent.py. -/
structure InterviewResult where
  name : Option String
  age : Option Nat
  q1 : String
  q2 : String
  q3 : String
  q4 : String
  q5 : String
  q6 : String
  q7 : String
deriving DecidableEq, Repr

/-- One per-user interview session (the dict created by
`start_interview`).  Python dicts keyed by question id are modelled as
functions: `answers` and `follow_up_count` map absent keys to `none`,
and `question_responses` maps absent keys to `[]` (the code inserts an
empty list before the first append, which is equivalent). -/
structure Session where
  state : InterviewState
  current_question_index : Nat
  name : Option String
  age : Option Nat
  answers : String → Option String
  question_responses : String → List String
  follow_up_count : String → Option Nat
  conversation_history : List Msg

/-- The dict returned by `process_response`. -/
structure Output where
  message : String
  state : InterviewState
  is_complete : Bool
  result : Option InterviewResult
deriving DecidableEq, Repr

/-- `d[k] = v` on a dict modelled as a function to `Option`. -/
def dictInsert (f : String → Option α) (k : String) (v : α) : String → Option α :=
  fun x => if x = k then some v else f x

/-- `del d[k]` on a dict modelled as a function to `Option` (the code
always guards the delete with a membership test or has just inserted
the key, so unconditional erasure is equivalent). -/
def dictErase (f : String → Option α) (k : String) : String → Option α :=
  fun x => if x = k then none else f x

/-- `question_responses[qid].append(m)` on the responses dict (with the
implicit creation of a missing entry as an empty list). -/
def appendResponse (f : String → List String) (k : String) (v : String) : String → List String :=
  fun q => if q = k then f q ++ [v] else f q

/-- `previous_responses if previous_responses else None` (an empty list
is falsy in Python). -/
def optPrev (l : List String) : Option (List String) :=
  if l.isEmpty then none else some l

/-- `recent_history[:-1] if len(recent_history) > 1 else None`. -/
def optHist (l : List Msg) : Option (List Msg) :=
  if l.length > 1 then some l.dropLast else none

/-- Python's `str.strip()`: drop whitespace from both ends.  (Lean's
own `String.trim` is defined by well-founded recursion on positions and
does not reduce in the kernel, so the embedding uses this equivalent
list-based definition.) -/
def pyStrip (s : String) : String :=
  ⟨((s.data.dropWhile Char.isWhitespace).reverse.dropWhile Char.isWhitespace).reverse⟩

/-! ## Completeness analyzer (question_analyzer.py) -/

/-- The completion-indicating keywords scanned by `_basic_analysis`
(line 190). -/
def KEYWORDS : List String := ["بود", "هست", "دارم", "می‌کنم", "داشتم", "کردم"]

/-- Python's substring test `needle in hay`. -/
def strContains (hay needle : String) : Bool :=
  hay.toList.tails.any (fun t => needle.toList.isPrefixOf t)

/-- Generic positive acknowledgment substituted by the analyzer
(question_analyzer.py lines 137, 143, 199). -/
def genericAck : String := "عالی! جوابت کامل بود! 😊✨"

/-- "Too short" feedback of the heuristic fallback (line 171). -/
def tooShortFeedback : String :=
  "اوه! جوابت خیلی کوتاه بود! 😊\n\nمی‌خوام بیشتر بفهمم! لطفاً بیشتر برام توضیح بده تا بهتر بفهمم چی می‌گی! 🤔"

/-- Feedback of the question-mark branch of the heuristic fallback
(line 180). -/
def confusedFeedback : String :=
  "اوه! به نظر می‌رسه سوال داری! 😊\n\nاگه چیزی واضح نیست یا سوالی داری، حتماً بپرس! من اینجام تا کمکت کنم! بعدش جوابت رو کامل کن تا بهتر بفهمم! 🤔✨"

/-- "Tell me more" feedback of the heuristic fallback's final return
(line 206). -/
def tellMoreFeedback : String :=
  "اوه! می‌خوام بیشتر بفهمم! 😊\n\nلطفاً بیشتر برام توضیح بده تا بهتر بفهمم چی می‌گی! 🤔"

/-- Number of ASCII question marks in a string:
`user_response.count('?')` in `_basic_analysis` (line 175). -/
def countQMarks (r : String) : Nat := r.toList.count '?'

/-- Lines 183-207 of `_basic_analysis`: the code that runs after the
length and question-mark guards.  The keyword loop iterates over
`required_elements` but its body tests a condition independent of the
loop variable, which the `foldl` mirrors. -/
def basic_rest (user_response : String) (required_elements : List String) : AnalysisResult :=
  let response_lower := user_response.toLower
  if (pyStrip user_response).length > 40 then
    let keywords_found := required_elements.foldl
      (fun acc _ => if KEYWORDS.any (fun kw => strContains response_lower kw) then acc + 1 else acc) 0
    if keywords_found > 0 ∨ (pyStrip user_response).length > 80 then
      ⟨true, [], [], genericAck⟩
    else
      ⟨false, required_elements.take 1, [], tellMoreFeedback⟩
  else
    ⟨false, required_elements.take 1, [], tellMoreFeedback⟩

/-- `_basic_analysis` from question_analyzer.py (lines 157-207): the
deterministic heuristic fallback used when the model is unavailable or
its output unparsable. -/
def basic_analysis (user_response : String) (required_elements : List String) : AnalysisResult :=
  if (pyStrip user_response).length < 30 then
    ⟨false, required_elements, [], tooShortFeedback⟩
  else if countQMarks user_response > 2 then
    ⟨false, ["اطلاعات بیشتر"], [], confusedFeedback⟩
  else
    basic_rest user_response required_elements

/-- The fields read out of a successfully parsed model JSON object in
`analyze_response` (lines 130-132, with the `.get` defaults already
applied). -/
structure ParsedAnalysis where
  is_complete : Bool
  missing_elements : List String
  mentioned_topics : List String
  feedback : String
deriving DecidableEq, Repr

/-- The post-parse policy corrections of `analyze_response`
(lines 134-150): an empty feedback on a complete verdict is replaced by
the generic acknowledgment, and an incomplete verdict with no missing
elements is overridden to complete with the generic acknowledgment. -/
def analyze_parsed (p : ParsedAnalysis) : AnalysisResult :=
  let is_complete := p.is_complete
  let feedback := p.feedback
  let feedback1 := if is_complete ∧ (feedback = "" ∨ pyStrip feedback = "") then genericAck else feedback
  let pair := if ¬is_complete ∧ p.missing_elements.length = 0 then (true, genericAck)
              else (is_complete, feedback1)
  ⟨pair.1, p.missing_elements, p.mentioned_topics, pair.2⟩

/-- `analyze_response` from question_analyzer.py, with the external
model call and the JSON locate/repair parse (lines 103-128) summarised
by its outcome `modelOut`: `some p` when a JSON object was located and
parsed (possibly after the trailing-comma repair pass), `none` when the
call raised or no parse succeeded — in which case the code falls back
to `_basic_analysis`. -/
def analyze_response (modelOut : Option ParsedAnalysis)
    (user_response : String) (required_elements : List String) : AnalysisResult :=
  match modelOut with
  | some p => analyze_parsed p
  | none => basic_analysis user_response required_elements

/-! ## Interview state machine (interview_agent.py) -/

/-- An analyzer oracle: the result of
`self.analyzer.analyze_response(question_id, question_text,
user_message, required_elements, previous_responses,
conversation_history)`.  The real analyzer consults an external model
and never raises (section 4.1 of the design); the state-machine
theorems hold for an arbitrary oracle, and instantiating it with
`basic_analysis` models the model-unreachable case. -/
abbrev Analyzer :=
  String → String → String → List String → Option (List String) → Option (List Msg) → AnalysisResult

/-- A name/age extraction oracle, summarising lines 87-148 of
`_handle_name_age`: the structured "label: value" pattern scan, the
positional digit heuristic, and the model-backed JSON extraction
fallback.  The composite involves an external model call, so it is an
uninterpreted parameter; no claim depends on its value. -/
abbrev Extractor := String → Option String × Option Nat

/-- Python truthiness of the extracted name (`if name and age:` —
`None` and the empty string are falsy). -/
def pyTruthyName : Option String → Bool
  | some s => s != ""
  | none => false

/-- Python truthiness of the extracted age (`None` and `0` are falsy). -/
def pyTruthyAge : Option Nat → Bool
  | some a => a != 0
  | none => false

/-- `_get_result` from interview_agent.py: identity pair plus the
stored answer for each of the fixed ids q1..q7, defaulting to "". -/
def get_result (s : Session) : InterviewResult :=
  ⟨s.name, s.age,
   (s.answers "q1").getD "", (s.answers "q2").getD "", (s.answers "q3").getD "",
   (s.answers "q4").getD "", (s.answers "q5").getD "", (s.answers "q6").getD "",
   (s.answers "q7").getD ""⟩

/-- The fresh session dict created by `start_interview`. -/
def initialSession : Session where
  state := .GETTING_NAME_AGE
  current_question_index := 0
  name := none
  age := none
  answers := fun _ => none
  question_responses := fun _ => []
  follow_up_count := fun _ => none
  conversation_history := []

/-- `_handle_name_age` from interview_agent.py, with extraction
summarised by the oracle `ex`.  Indexing `QUESTIONS[0]` on an empty
question list would raise in Python, so that case returns `none`. -/
def handle_name_age (cfg : Config) (ex : Extractor) (s : Session) (m : String) :
    Option (Session × Output) :=
  let nameO := (ex m).1
  let ageO := (ex m).2
  if pyTruthyName nameO && pyTruthyAge ageO then
    match cfg.QUESTIONS.get? 0 with
    | none => none
    | some question_data =>
      let welcome_msg := "عالی " ++ nameO.getD "" ++
        "! خوشحالم که باهات دوست شدم! 😊\n\nحالا بذار سوالات باحال رو شروع کنیم! آماده‌ای؟ 🎉\n\n" ++
        question_data.question
      some ({ s with
                name := nameO
                age := ageO
                state := .ASKING_QUESTION
                conversation_history := s.conversation_history ++ [⟨"assistant", welcome_msg⟩] },
            ⟨welcome_msg, .ASKING_QUESTION, false, none⟩)
  else
    let missing := (if pyTruthyName nameO then [] else ["نام"]) ++
                   (if pyTruthyAge ageO then [] else ["سن"])
    let missing_msg := "اوه! من هنوز " ++ String.intercalate ", " missing ++
      " تو رو نمی‌دونم! 😊\n\nلطفاً بگو تا بهتر باهم دوست بشیم!\nمثلاً می‌تونی بگی: «من [نام] هستم و [سن] سال دارم»\n\nیا می‌تونی جداگانه بگی:\nاسمم: [نام]\nسنم: [سن]"
    some ({ s with
              conversation_history := s.conversation_history ++ [⟨"assistant", missing_msg⟩] },
          ⟨missing_msg, .GETTING_NAME_AGE, false, none⟩)

/-- `conversation_history[-15:] if len(conversation_history) > 15 else
conversation_history` (interview_agent.py lines 211, 356). -/
def recentSlice (h : List Msg) : List Msg :=
  if h.length > 15 then h.drop (h.length - 15) else h

/-- The follow-up message selection shared verbatim by both question
handlers (lines 310-319 and 443-452): the analyzer's feedback if its
strip is non-empty, otherwise a prompt naming the first missing
element, otherwise the "let's move on" text. -/
def followUpMessage (analysis : AnalysisResult) : String :=
  if analysis.feedback != "" ∧ pyStrip analysis.feedback != "" then analysis.feedback
  else
    match analysis.missing_elements with
    | m0 :: _ => "اوه! می‌خوام بیشتر بفهمم! 😊\n\nلطفاً درباره " ++ m0 ++ " بیشتر بگو! 🤔"
    | [] => "باشه! بذار به سوال بعدی بریم! 😊"

/-- The "let's move on" transition prefix used by the forced-acceptance
branches (lines 300 and 429). -/
def moveOnPreamble : String := "باشه! بذار به سوال بعدی بریم! 😊\n\n"

/-- The terminal notice returned for a completed session (line 76). -/
def completedNotice : String :=
  "اوه! مصاحبه قبلاً تموم شده بود! 😊\n\nاگه می‌خوای دوباره شروع کنیم، /start رو بزن تا یه مصاحبه جدید شروع کنیم! 🎉"

/-- `_handle_question_response` from interview_agent.py (lines
189-332).  Out-of-range question indexing (a Python IndexError) is
modelled as `none`. -/
def handle_question_response (cfg : Config) (an : Analyzer) (s : Session) (m : String) :
    Option (Session × Output) :=
  match cfg.QUESTIONS.get? s.current_question_index with
  | none => none
  | some question_data =>
    let question_id := question_data.id
    let hist1 := s.conversation_history ++ [⟨"user", m⟩]
    let responses1 := appendResponse s.question_responses question_id m
    let previous_responses := s.question_responses question_id
    let recent_history := recentSlice hist1
    let analysis := an question_id question_data.question m question_data.required_elements
      (optPrev previous_responses) (optHist recent_history)
    if analysis.is_complete then
      let combined_answer := String.intercalate "\n\n" (responses1 question_id)
      let answers1 := dictInsert s.answers question_id combined_answer
      let fuc1 := dictErase s.follow_up_count question_id
      let idx1 := s.current_question_index + 1
      if cfg.QUESTIONS.length ≤ idx1 then
        let s2 : Session := { s with
          state := .COMPLETED
          current_question_index := idx1
          answers := answers1
          follow_up_count := fuc1
          question_responses := responses1
          conversation_history := hist1 ++ [⟨"assistant", cfg.COMPLETION_MESSAGE⟩] }
        some (s2, ⟨cfg.COMPLETION_MESSAGE, .COMPLETED, true, some (get_result s2)⟩)
      else
        match cfg.QUESTIONS.get? idx1 with
        | none => none
        | some next_question =>
          let s2 : Session := { s with
            current_question_index := idx1
            answers := answers1
            follow_up_count := fuc1
            question_responses := responses1
            conversation_history := hist1 ++ [⟨"assistant", next_question.question⟩] }
          some (s2, ⟨next_question.question, .ASKING_QUESTION, false, none⟩)
    else
      let newCount := (s.follow_up_count question_id).getD 0 + 1
      if newCount > 1 ∨ analysis.missing_elements.length = 0 then
        let combined_answer := String.intercalate "\n\n" (responses1 question_id)
        let answers1 := dictInsert s.answers question_id combined_answer
        let fuc1 := dictErase s.follow_up_count question_id
        let idx1 := s.current_question_index + 1
        if cfg.QUESTIONS.length ≤ idx1 then
          let s2 : Session := { s with
            state := .COMPLETED
            current_question_index := idx1
            answers := answers1
            follow_up_count := fuc1
            question_responses := responses1
            conversation_history := hist1 }
          some (s2, ⟨cfg.COMPLETION_MESSAGE, .COMPLETED, true, some (get_result s2)⟩)
        else
          match cfg.QUESTIONS.get? idx1 with
          | none => none
          | some next_question =>
            let s2 : Session := { s with
              current_question_index := idx1
              answers := answers1
              follow_up_count := fuc1
              question_responses := responses1
              conversation_history := hist1 }
            some (s2, ⟨moveOnPreamble ++ next_question.question, .ASKING_QUESTION, false, none⟩)
      else
        let follow_up_message := followUpMessage analysis
        let s2 : Session := { s with
          state := .FOLLOWING_UP
          question_responses := responses1
          follow_up_count := dictInsert s.follow_up_count question_id newCount
          conversation_history := hist1 ++ [⟨"assistant", follow_up_message⟩] }
        some (s2, ⟨follow_up_message, .FOLLOWING_UP, false, none⟩)

/-- `_handle_follow_up` from interview_agent.py (lines 334-465).  The
source duplicates the question-response logic with different
state-field assignments and different conversation-history appends;
those differences are preserved here. -/
def handle_follow_up (cfg : Config) (an : Analyzer) (s : Session) (m : String) :
    Option (Session × Output) :=
  match cfg.QUESTIONS.get? s.current_question_index with
  | none => none
  | some question_data =>
    let question_id := question_data.id
    let hist1 := s.conversation_history ++ [⟨"user", m⟩]
    let responses1 := appendResponse s.question_responses question_id m
    let previous_responses := s.question_responses question_id
    let recent_history := recentSlice hist1
    let analysis := an question_id question_data.question m question_data.required_elements
      (optPrev previous_responses) (optHist recent_history)
    if analysis.is_complete then
      let combined_answer := String.intercalate "\n\n" (responses1 question_id)
      let answers1 := dictInsert s.answers question_id combined_answer
      let fuc1 := dictErase s.follow_up_count question_id
      let idx1 := s.current_question_index + 1
      if cfg.QUESTIONS.length ≤ idx1 then
        let s2 : Session := { s with
          state := .COMPLETED
          current_question_index := idx1
          answers := answers1
          follow_up_count := fuc1
          question_responses := responses1
          conversation_history := hist1 }
        some (s2, ⟨cfg.COMPLETION_MESSAGE, .COMPLETED, true, some (get_result s2)⟩)
      else
        match cfg.QUESTIONS.get? idx1 with
        | none => none
        | some next_question =>
          let s2 : Session := { s with
            state := .ASKING_QUESTION
            current_question_index := idx1
            answers := answers1
            follow_up_count := fuc1
            question_responses := responses1
            conversation_history := hist1 }
          some (s2, ⟨next_question.question, .ASKING_QUESTION, false, none⟩)
    else
      let newCount := (s.follow_up_count question_id).getD 0 + 1
      if newCount > 1 ∨ analysis.missing_elements.length = 0 then
        let combined_answer := String.intercalate "\n\n" (responses1 question_id)
        let answers1 := dictInsert s.answers question_id combined_answer
        let fuc1 := dictErase s.follow_up_count question_id
        let idx1 := s.current_question_index + 1
        if cfg.QUESTIONS.length ≤ idx1 then
          let s2 : Session := { s with
            state := .COMPLETED
            current_question_index := idx1
            answers := answers1
            follow_up_count := fuc1
            question_responses := responses1
            conversation_history := hist1 }
          some (s2, ⟨cfg.COMPLETION_MESSAGE, .COMPLETED, true, some (get_result s2)⟩)
        else
          match cfg.QUESTIONS.get? idx1 with
          | none => none
          | some next_question =>
            let next_question_msg := moveOnPreamble ++ next_question.question
            let s2 : Session := { s with
              state := .ASKING_QUESTION
              current_question_index := idx1
              answers := answers1
              follow_up_count := fuc1
              question_responses := responses1
              conversation_history := hist1 ++ [⟨"assistant", next_question_msg⟩] }
            some (s2, ⟨next_question_msg, .ASKING_QUESTION, false, none⟩)
      else
        let follow_up_message := followUpMessage analysis
        let s2 : Session := { s with
          question_responses := responses1
          follow_up_count := dictInsert s.follow_up_count question_id newCount
          conversation_history := hist1 ++ [⟨"assistant", follow_up_message⟩] }
        some (s2, ⟨follow_up_message, .FOLLOWING_UP, false, none⟩)

/-- The per-session dispatch of `process_response` once a session
exists (lines 62-80).  A stored `WAITING_FOR_START` state matches no
branch in the Python source, which then implicitly returns `None`;
that is modelled as `none` (it is unreachable: no stored session ever
has that state). -/
def processSession (cfg : Config) (an : Analyzer) (ex : Extractor) (s : Session) (m : String) :
    Option (Session × Output) :=
  match s.state with
  | .WAITING_FOR_START => none
  | .GETTING_NAME_AGE => handle_name_age cfg ex s m
  | .ASKING_QUESTION => handle_question_response cfg an s m
  | .FOLLOWING_UP => handle_follow_up cfg an s m
  | .COMPLETED => some (s, ⟨completedNotice, .COMPLETED, true, some (get_result s)⟩)

/-- `process_response` from interview_agent.py (lines 42-80), over the
per-user session store `self.interviews`.  A missing session starts a
fresh interview and returns the introduction (lines 53-60); Python
mutates the stored session in place, which the functional embedding
renders as a store update. -/
def process_response (cfg : Config) (an : Analyzer) (ex : Extractor)
    (interviews : Nat → Option Session) (user_id : Nat) (m : String) :
    Option ((Nat → Option Session) × Output) :=
  match interviews user_id with
  | none =>
    some (fun u => if u = user_id then some initialSession else interviews u,
          ⟨cfg.INTRODUCTION, .GETTING_NAME_AGE, false, none⟩)
  | some s =>
    (processSession cfg an ex s m).map (fun p =>
      (fun u => if u = user_id then some p.1 else interviews u, p.2))

/-- Sessions reachable from a fresh `start_interview` session by any
sequence of `submit` calls, with arbitrary messages and arbitrary
analyzer/extractor oracle behaviour at each step. -/
inductive Reachable (cfg : Config) : Session → Prop where
  | init : Reachable cfg initialSession
  | step (s s' : Session) (an : Analyzer) (ex : Extractor) (m : String) (out : Output) :
      Reachable cfg s → processSession cfg an ex s m = some (s', out) → Reachable cfg s'

/-- The id of the question the cursor currently points at, if any. -/
def currentQid (cfg : Config) (s : Session) : Option String :=
  (cfg.QUESTIONS.get? s.current_question_index).map QuestionSpec.id

/-- The analyzer instantiation for the model-unreachable case: every
`analyze_response` call raises or fails to parse and returns
`_basic_analysis` (question_analyzer.py lines 152-155). -/
def unreachableModelAnalyzer : Analyzer :=
  fun _ _ r req _ _ => basic_analysis r req

/-- Fold a list of user messages through `processSession`, failing if
any step fails: a straight-line run of submit calls on one session. -/
def runMsgs (cfg : Config) (an : Analyzer) (ex : Extractor)
    (s : Session) (msgs : List String) : Option Session :=
  match msgs with
  | [] => some s
  | m :: rest =>
    match processSession cfg an ex s m with
    | none => none
    | some p => runMsgs cfg an ex p.1 rest

/-- The session invariant carried through every `submit` step (for a
question list with pairwise-distinct ids): a follow-up counter entry is
only ever `1` and only for the question the cursor points at; questions
at or beyond the cursor have no stored answer; and every stored answer
is the blank-line join of the recorded responses for its question. -/
def SessionInv (cfg : Config) (s : Session) : Prop :=
  (∀ q, s.follow_up_count q = none ∨
     (s.follow_up_count q = some 1 ∧ currentQid cfg s = some q)) ∧
  (∀ i (hi : i < cfg.QUESTIONS.length), s.current_question_index ≤ i →
     s.answers (cfg.QUESTIONS.get ⟨i, hi⟩).id = none) ∧
  (∀ q, s.answers q = none ∨
     s.answers q = some (String.intercalate "\n\n" (s.question_responses q)))

/-- The projection of a handler result that discards the session's
`state` field and `conversation_history` — the components on which the
two question handlers genuinely differ. -/
def coreView (p : Session × Output) :
    (String → Option String) × (String → List String) × (String → Option Nat) ×
    Nat × Option String × Option Nat × Output :=
  (p.1.answers, p.1.question_responses, p.1.follow_up_count,
   p.1.current_question_index, p.1.name, p.1.age, p.2)

/-! ## Concrete instances used by witnesses and counterexamples -/

/-- A concrete two-question configuration. -/
def cfgW : Config :=
  ⟨"سلام! به مصاحبه خوش اومدی!",
   [⟨"q1", "سوال اول", ["عنصر"]⟩, ⟨"q2", "سوال دوم", ["عنصر"]⟩],
   "مصاحبه تموم شد!"⟩

/-- A five-question configuration, long enough to grow the history
past 15 entries. -/
def cfg5W : Config :=
  ⟨"سلام",
   [⟨"q1", "سوال ۱", ["ع"]⟩, ⟨"q2", "سوال ۲", ["ع"]⟩, ⟨"q3", "سوال ۳", ["ع"]⟩,
    ⟨"q4", "سوال ۴", ["ع"]⟩, ⟨"q5", "سوال ۵", ["ع"]⟩],
   "تمام"⟩

/-- An analyzer oracle that always returns a complete verdict. -/
def anCompleteW : Analyzer := fun _ _ _ _ _ _ => ⟨true, [], [], "عالی"⟩

/-- An analyzer oracle that always returns an incomplete verdict with
one missing element and non-blank feedback. -/
def anIncompleteW : Analyzer := fun _ _ _ _ _ _ => ⟨false, ["ع"], [], "بیشتر بگو"⟩

/-- An extraction oracle that always finds a name and an age. -/
def exW : Extractor := fun _ => (some "آرمان", some 9)

/-- A concrete session awaiting the answer to the first question. -/
def sAskW : Session :=
  { initialSession with state := .ASKING_QUESTION, name := some "آرمان", age := some 9 }

/-- A concrete completed session. -/
def sDoneW : Session :=
  { sAskW with state := .COMPLETED, current_question_index := 2 }

/-- The message sequence of the history counterexample: identity, then
four questions each answered by an initial reply plus one follow-up
reply (the second always forces acceptance). -/
def msgs5W : List String :=
  ["اسمم: آرمان\nسنم: 9", "الف", "ب", "الف", "ب", "الف", "ب", "الف", "ب"]

/-- The session produced from `initialSession` by one identity step
with `exW`: awaiting the first question, with the welcome message in
the history. -/
def s1W : Session :=
  { initialSession with
      state := .ASKING_QUESTION
      name := some "آرمان"
      age := some 9
      conversation_history :=
        [⟨"assistant", "عالی آرمان! خوشحالم که باهات دوست شدم! 😊\n\nحالا بذار سوالات باحال رو شروع کنیم! آماده‌ای؟ 🎉\n\nسوال اول"⟩] }

/-- The session produced from `s1W` by one complete-verdict answer to
the first question. -/
def s2W : Session :=
  { s1W with
      current_question_index := 1
      answers := dictInsert initialSession.answers "q1" (String.intercalate "\n\n" ["جواب"])
      question_responses := appendResponse initialSession.question_responses "q1" "جواب"
      follow_up_count := dictErase initialSession.follow_up_count "q1"
      conversation_history :=
        s1W.conversation_history ++ [⟨"user", "جواب"⟩, ⟨"assistant", "سوال دوم"⟩] }

/-- Parsed model output with a complete verdict and empty feedback. -/
def parsedEmptyFeedback : ParsedAnalysis := ⟨true, ["x"], [], ""⟩

/-- Parsed model output with an incomplete verdict but no missing
elements. -/
def parsedNoMissing : ParsedAnalysis := ⟨false, [], ["y"], "چیزی"⟩

/-! ## Helper lemmas -/

theorem recentSlice_length_le (h : List Msg) : (recentSlice h).length ≤ 15 := by
  unfold recentSlice
  split
  · rename_i hlen
    simp only [List.length_drop]
    omega
  · rename_i hlen
    omega

theorem nodup_ids_inj {l : List QuestionSpec}
    (hnd : (l.map QuestionSpec.id).Nodup) {i j : Nat} (hi : i < l.length) (hj : j < l.length)
    (hij : (l.get ⟨i, hi⟩).id = (l.get ⟨j, hj⟩).id) : i = j := by
  have hinj := List.nodup_iff_injective_get.mp hnd
  have h1 : (l.map QuestionSpec.id).get ⟨i, by simpa using hi⟩ =
      (l.map QuestionSpec.id).get ⟨j, by simpa using hj⟩ := by
    simpa [List.get_map] using hij
  simpa using congrArg Fin.val (hinj h1)

theorem handle_name_age_effects {cfg : Config} {ex : Extractor} {s : Session} {m : String}
    {s' : Session} {out : Output}
    (h : handle_name_age cfg ex s m = some (s', out)) :
    s'.answers = s.answers ∧ s'.follow_up_count = s.follow_up_count ∧
    s'.current_question_index = s.current_question_index ∧
    s'.question_responses = s.question_responses := by
  unfold handle_name_age at h
  simp only [] at h
  split at h <;> split at h <;>
    first
      | exact Option.noConfusion h
      | (simp only [Option.some.injEq, Prod.mk.injEq] at h
         obtain ⟨hs, -⟩ := h
         subst hs
         exact ⟨rfl, rfl, rfl, rfl⟩)

theorem currentQid_congr {cfg : Config} {s s' : Session}
    (h : s'.current_question_index = s.current_question_index) :
    currentQid cfg s' = currentQid cfg s := by
  unfold currentQid
  rw [h]

theorem hqr_cases {cfg : Config} {an : Analyzer} {s : Session} {m : String}
    {s' : Session} {out : Output}
    (h : handle_question_response cfg an s m = some (s', out)) :
    ∃ qd, cfg.QUESTIONS.get? s.current_question_index = some qd ∧
      s'.question_responses = appendResponse s.question_responses qd.id m ∧
      s'.name = s.name ∧ s'.age = s.age ∧
      (∃ rest, s'.conversation_history = (s.conversation_history ++ [⟨"user", m⟩]) ++ rest) ∧
      ((s'.answers = dictInsert s.answers qd.id
            (String.intercalate "\n\n" (s.question_responses qd.id ++ [m])) ∧
        s'.follow_up_count = dictErase s.follow_up_count qd.id ∧
        s'.current_question_index = s.current_question_index + 1) ∨
       (s'.answers = s.answers ∧
        s'.current_question_index = s.current_question_index ∧
        s'.follow_up_count = dictInsert s.follow_up_count qd.id
            ((s.follow_up_count qd.id).getD 0 + 1) ∧
        (s.follow_up_count qd.id).getD 0 + 1 ≤ 1)) := by
  unfold handle_question_response at h
  cases hq : cfg.QUESTIONS.get? s.current_question_index with
  | none => rw [hq] at h; exact Option.noConfusion h
  | some qd =>
    rw [hq] at h
    simp only [] at h
    refine ⟨qd, rfl, ?_⟩
    split at h
    · split at h
      · simp only [Option.some.injEq, Prod.mk.injEq] at h
        obtain ⟨hs, -⟩ := h
        subst hs
        exact ⟨rfl, rfl, rfl, ⟨_, rfl⟩, Or.inl ⟨by simp [appendResponse], rfl, rfl⟩⟩
      · split at h
        · exact Option.noConfusion h
        · simp only [Option.some.injEq, Prod.mk.injEq] at h
          obtain ⟨hs, -⟩ := h
          subst hs
          exact ⟨rfl, rfl, rfl, ⟨_, rfl⟩, Or.inl ⟨by simp [appendResponse], rfl, rfl⟩⟩
    · split at h
      · split at h
        · simp only [Option.some.injEq, Prod.mk.injEq] at h
          obtain ⟨hs, -⟩ := h
          subst hs
          exact ⟨rfl, rfl, rfl, ⟨[], by simp⟩, Or.inl ⟨by simp [appendResponse], rfl, rfl⟩⟩
        · split at h
          · exact Option.noConfusion h
          · simp only [Option.some.injEq, Prod.mk.injEq] at h
            obtain ⟨hs, -⟩ := h
            subst hs
            exact ⟨rfl, rfl, rfl, ⟨[], by simp⟩, Or.inl ⟨by simp [appendResponse], rfl, rfl⟩⟩
      · rename_i hguard
        simp only [Option.some.injEq, Prod.mk.injEq] at h
        obtain ⟨hs, -⟩ := h
        subst hs
        push_neg at hguard
        exact ⟨rfl, rfl, rfl, ⟨_, rfl⟩, Or.inr ⟨rfl, rfl, rfl, by omega⟩⟩

theorem hfu_cases {cfg : Config} {an : Analyzer} {s : Session} {m : String}
    {s' : Session} {out : Output}
    (h : handle_follow_up cfg an s m = some (s', out)) :
    ∃ qd, cfg.QUESTIONS.get? s.current_question_index = some qd ∧
      s'.question_responses = appendResponse s.question_responses qd.id m ∧
      s'.name = s.name ∧ s'.age = s.age ∧
      (∃ rest, s'.conversation_history = (s.conversation_history ++ [⟨"user", m⟩]) ++ rest) ∧
      ((s'.answers = dictInsert s.answers qd.id
            (String.intercalate "\n\n" (s.question_responses qd.id ++ [m])) ∧
        s'.follow_up_count = dictErase s.follow_up_count qd.id ∧
        s'.current_question_index = s.current_question_index + 1) ∨
       (s'.answers = s.answers ∧
        s'.current_question_index = s.current_question_index ∧
        s'.follow_up_count = dictInsert s.follow_up_count qd.id
            ((s.follow_up_count qd.id).getD 0 + 1) ∧
        (s.follow_up_count qd.id).getD 0 + 1 ≤ 1)) := by
  unfold handle_follow_up at h
  cases hq : cfg.QUESTIONS.get? s.current_question_index with
  | none => rw [hq] at h; exact Option.noConfusion h
  | some qd =>
    rw [hq] at h
    simp only [] at h
    refine ⟨qd, rfl, ?_⟩
    split at h
    · split at h
      · simp only [Option.some.injEq, Prod.mk.injEq] at h
        obtain ⟨hs, -⟩ := h
        subst hs
        exact ⟨rfl, rfl, rfl, ⟨[], by simp⟩, Or.inl ⟨by simp [appendResponse], rfl, rfl⟩⟩
      · split at h
        · exact Option.noConfusion h
        · simp only [Option.some.injEq, Prod.mk.injEq] at h
          obtain ⟨hs, -⟩ := h
          subst hs
          exact ⟨rfl, rfl, rfl, ⟨[], by simp⟩, Or.inl ⟨by simp [appendResponse], rfl, rfl⟩⟩
    · split at h
      · split at h
        · simp only [Option.some.injEq, Prod.mk.injEq] at h
          obtain ⟨hs, -⟩ := h
          subst hs
          exact ⟨rfl, rfl, rfl, ⟨[], by simp⟩, Or.inl ⟨by simp [appendResponse], rfl, rfl⟩⟩
        · split at h
          · exact Option.noConfusion h
          · simp only [Option.some.injEq, Prod.mk.injEq] at h
            obtain ⟨hs, -⟩ := h
            subst hs
            exact ⟨rfl, rfl, rfl, ⟨_, rfl⟩, Or.inl ⟨by simp [appendResponse], rfl, rfl⟩⟩
      · rename_i hguard
        simp only [Option.some.injEq, Prod.mk.injEq] at h
        obtain ⟨hs, -⟩ := h
        subst hs
        push_neg at hguard
        exact ⟨rfl, rfl, rfl, ⟨_, rfl⟩, Or.inr ⟨rfl, rfl, rfl, by omega⟩⟩

theorem processSession_cases {cfg : Config} {an : Analyzer} {ex : Extractor}
    {s : Session} {m : String} {s' : Session} {out : Output}
    (h : processSession cfg an ex s m = some (s', out)) :
    (s'.answers = s.answers ∧ s'.follow_up_count = s.follow_up_count ∧
     s'.current_question_index = s.current_question_index ∧
     s'.question_responses = s.question_responses) ∨
    (∃ qd, cfg.QUESTIONS.get? s.current_question_index = some qd ∧
      s'.question_responses = appendResponse s.question_responses qd.id m ∧
      ((s'.answers = dictInsert s.answers qd.id
            (String.intercalate "\n\n" (s.question_responses qd.id ++ [m])) ∧
        s'.follow_up_count = dictErase s.follow_up_count qd.id ∧
        s'.current_question_index = s.current_question_index + 1) ∨
       (s'.answers = s.answers ∧
        s'.current_question_index = s.current_question_index ∧
        s'.follow_up_count = dictInsert s.follow_up_count qd.id
            ((s.follow_up_count qd.id).getD 0 + 1) ∧
        (s.follow_up_count qd.id).getD 0 + 1 ≤ 1))) := by
  unfold processSession at h
  cases hst : s.state <;> rw [hst] at h
  case WAITING_FOR_START => exact Option.noConfusion h
  case GETTING_NAME_AGE =>
    obtain ⟨ha, hf, hc, hr⟩ := handle_name_age_effects h
    exact Or.inl ⟨ha, hf, hc, hr⟩
  case ASKING_QUESTION =>
    obtain ⟨qd, hq, hr, -, -, -, hbr⟩ := hqr_cases h
    exact Or.inr ⟨qd, hq, hr, hbr⟩
  case FOLLOWING_UP =>
    obtain ⟨qd, hq, hr, -, -, -, hbr⟩ := hfu_cases h
    exact Or.inr ⟨qd, hq, hr, hbr⟩
  case COMPLETED =>
    simp only [Option.some.injEq, Prod.mk.injEq] at h
    obtain ⟨hs, -⟩ := h
    subst hs
    exact Or.inl ⟨rfl, rfl, rfl, rfl⟩

theorem sessionInv_step {cfg : Config} {an : Analyzer} {ex : Extractor}
    {s : Session} {m : String} {s' : Session} {out : Output}
    (hnd : (cfg.QUESTIONS.map QuestionSpec.id).Nodup)
    (hInv : SessionInv cfg s)
    (h : processSession cfg an ex s m = some (s', out)) :
    SessionInv cfg s' := by
  obtain ⟨hI1, hI2, hI3⟩ := hInv
  rcases processSession_cases h with ⟨ha, hf, hc, hr⟩ | ⟨qd, hq, hr, hbr⟩
  · refine ⟨?_, ?_, ?_⟩
    · intro q
      rw [hf, currentQid_congr hc]
      exact hI1 q
    · intro i hi hle
      rw [ha]
      exact hI2 i hi (by omega)
    · intro q
      rw [ha, hr]
      exact hI3 q
  · obtain ⟨hlt, hget⟩ := List.get?_eq_some.mp hq
    have hcurq : currentQid cfg s = some qd.id := by
      unfold currentQid
      rw [hq]
      rfl
    rcases hbr with ⟨hans, hfuc, hidx⟩ | ⟨hans, hidx, hfuc, hle1⟩
    · refine ⟨?_, ?_, ?_⟩
      · intro q
        by_cases hqe : q = qd.id
        · left
          rw [hfuc, hqe]
          simp [dictErase]
        · rcases hI1 q with h0 | ⟨h1, hc1⟩
          · left
            rw [hfuc]
            simpa [dictErase, hqe] using h0
          · exfalso
            have hq2 := hcurq.symm.trans hc1
            exact hqe (Option.some.inj hq2).symm
      · intro i hi hle
        rw [hans]
        have hne : ¬((cfg.QUESTIONS.get ⟨i, hi⟩).id = qd.id) := by
          intro heq
          have : i = s.current_question_index := by
            apply nodup_ids_inj hnd hi hlt
            rw [heq, hget]
          omega
        have hnone := hI2 i hi (by omega)
        simp only [dictInsert]
        rw [if_neg hne]
        exact hnone
      · intro q
        by_cases hqe : q = qd.id
        · right
          rw [hans, hr, hqe]
          simp [dictInsert, appendResponse]
        · rw [hans, hr]
          rcases hI3 q with h0 | h1
          · left
            simpa [dictInsert, hqe] using h0
          · right
            simpa [dictInsert, appendResponse, hqe] using h1
    · have hcur' : currentQid cfg s' = currentQid cfg s := currentQid_congr hidx
      refine ⟨?_, ?_, ?_⟩
      · intro q
        by_cases hqe : q = qd.id
        · right
          refine ⟨?_, ?_⟩
          · rw [hfuc, hqe]
            rcases hI1 qd.id with h0 | ⟨h1, -⟩
            · simp [dictInsert, h0]
            · rw [h1] at hle1
              simp at hle1
          · rw [hcur', hcurq, hqe]
        · rcases hI1 q with h0 | ⟨h1, hc1⟩
          · left
            rw [hfuc]
            simpa [dictInsert, hqe] using h0
          · right
            refine ⟨?_, ?_⟩
            · rw [hfuc]
              simpa [dictInsert, hqe] using h1
            · rw [hcur']
              exact hc1
      · intro i hi hle
        rw [hans]
        exact hI2 i hi (by omega)
      · intro q
        by_cases hqe : q = qd.id
        · left
          rw [hans, hqe]
          have hnone := hI2 s.current_question_index hlt le_rfl
          rw [hget] at hnone
          exact hnone
        · rw [hans, hr]
          rcases hI3 q with h0 | h1
          · exact Or.inl h0
          · right
            simpa [appendResponse, hqe] using h1

theorem reachable_sessionInv {cfg : Config} {s : Session}
    (hnd : (cfg.QUESTIONS.map QuestionSpec.id).Nodup)
    (hr : Reachable cfg s) : SessionInv cfg s := by
  induction hr with
  | init =>
    exact ⟨fun q => Or.inl rfl, fun i hi hle => rfl, fun q => Or.inl rfl⟩
  | step s1 s2 an ex m out hprev hstep ih =>
    exact sessionInv_step hnd ih hstep

theorem foldl_cond_count {α : Type} (P : Prop) [Decidable P] (l : List α) (a : Nat) :
    l.foldl (fun acc _ => if P then acc + 1 else acc) a =
      if P then a + l.length else a := by
  induction l generalizing a with
  | nil => simp
  | cons x xs ih =>
    rw [List.foldl_cons, ih]
    split <;> simp <;> omega

/-! ## Claims -/

/-- C8: a `submit` (`process_response`) call for a user id with no
session does not fail: it creates a fresh session in the
identity-collection phase and returns the fixed greeting with
`is_complete = false` and no result. -/
theorem claim8_no_session_behaves_as_start (cfg : Config) (an : Analyzer) (ex : Extractor)
    (store : Nat → Option Session) (user_id : Nat) (m : String)
    (h : store user_id = none) :
    process_response cfg an ex store user_id m =
      some (fun u => if u = user_id then some initialSession else store u,
            ⟨cfg.INTRODUCTION, .GETTING_NAME_AGE, false, none⟩) := by
  unfold process_response
  rw [h]

theorem claim8_witness :
    process_response cfgW anCompleteW exW (fun _ => none) 7 "سلام" =
      some (fun u => if u = 7 then some initialSession else none,
            ⟨cfgW.INTRODUCTION, .GETTING_NAME_AGE, false, none⟩) :=
  claim8_no_session_behaves_as_start cfgW anCompleteW exW (fun _ => none) 7 "سلام" rfl

/-- C9: the more-than-two-question-marks branch of the heuristic
fallback counts only the ASCII question mark: any reply of stripped
length at least 30 with at most two ASCII marks falls through to the
rest of the heuristic (`basic_rest`), regardless of how many Persian
marks it contains. -/
theorem claim9_qmark_branch_ascii_only (r : String) (req : List String)
    (h30 : ¬((pyStrip r).length < 30)) (hqm : ¬(countQMarks r > 2)) :
    basic_analysis r req = basic_rest r req := by
  unfold basic_analysis
  rw [if_neg h30, if_neg hqm]

theorem claim9_witness :
    basic_analysis "این پاسخ طولانی است؟ ؟ ؟ و به اندازه کافی بلند برای سی" ["عنصر"] =
      basic_rest "این پاسخ طولانی است؟ ؟ ؟ و به اندازه کافی بلند برای سی" ["عنصر"] :=
  claim9_qmark_branch_ascii_only _ ["عنصر"] (by decide) (by decide)

/-- C3: once a session is completed, a further `submit` call leaves the
whole session store unchanged and returns the fixed terminal notice
with `is_complete = true` and the already-computed result. -/
theorem claim3_completed_is_terminal (cfg : Config) (an : Analyzer) (ex : Extractor)
    (store : Nat → Option Session) (user_id : Nat) (m : String) (s : Session)
    (h1 : store user_id = some s) (h2 : s.state = .COMPLETED) :
    process_response cfg an ex store user_id m =
      some (store, ⟨completedNotice, .COMPLETED, true, some (get_result s)⟩) := by
  unfold process_response
  rw [h1]
  simp only []
  unfold processSession
  rw [h2]
  simp only [Option.map_some']
  have hst : (fun u => if u = user_id then some s else store u) = store := by
    funext u
    by_cases hu : u = user_id
    · rw [if_pos hu, hu, h1]
    · rw [if_neg hu]
  rw [hst]

theorem claim3_witness :
    process_response cfgW anCompleteW exW (fun u => if u = 0 then some sDoneW else none) 0 "سلام" =
      some ((fun u => if u = 0 then some sDoneW else none),
            ⟨completedNotice, .COMPLETED, true, some (get_result sDoneW)⟩) :=
  claim3_completed_is_terminal cfgW anCompleteW exW _ 0 "سلام" sDoneW rfl rfl

/-- C6: the analyzer's post-parse corrections: a parsed complete
verdict with empty feedback gets the generic positive acknowledgment,
and a parsed incomplete verdict with no missing elements is overridden
to a complete verdict with the generic acknowledgment. -/
theorem claim6_parse_policy_corrections (p : ParsedAnalysis) (r : String) (req : List String) :
    ((p.is_complete = true ∧ p.feedback = "") →
       (analyze_response (some p) r req).feedback = genericAck) ∧
    ((p.is_complete = false ∧ p.missing_elements = []) →
       (analyze_response (some p) r req).is_complete = true ∧
       (analyze_response (some p) r req).feedback = genericAck) := by
  constructor
  · rintro ⟨hc, hf⟩
    unfold analyze_response analyze_parsed
    simp [hc, hf]
  · rintro ⟨hc, hm⟩
    unfold analyze_response analyze_parsed
    simp [hc, hm]

theorem claim6_witness :
    (analyze_response (some parsedEmptyFeedback) "ر" ["ع"]).feedback = genericAck ∧
    (analyze_response (some parsedNoMissing) "ر" ["ع"]).is_complete = true ∧
    (analyze_response (some parsedNoMissing) "ر" ["ع"]).feedback = genericAck := by
  refine ⟨(claim6_parse_policy_corrections parsedEmptyFeedback "ر" ["ع"]).1 ⟨rfl, rfl⟩, ?_, ?_⟩
  · exact ((claim6_parse_policy_corrections parsedNoMissing "ر" ["ع"]).2 ⟨rfl, rfl⟩).1
  · exact ((claim6_parse_policy_corrections parsedNoMissing "ر" ["ع"]).2 ⟨rfl, rfl⟩).2

/-- C10: the heuristic fallback's completeness verdict and feedback
text do not depend on the texts of the required elements: any two
non-empty required-element lists produce the same `is_complete` and the
same `feedback` for every reply. -/
theorem claim10_fallback_ignores_element_texts (r : String) (req1 req2 : List String)
    (h1 : req1 ≠ []) (h2 : req2 ≠ []) :
    (basic_analysis r req1).is_complete = (basic_analysis r req2).is_complete ∧
    (basic_analysis r req1).feedback = (basic_analysis r req2).feedback := by
  unfold basic_analysis
  split_ifs with hshort hqm
  · exact ⟨rfl, rfl⟩
  · exact ⟨rfl, rfl⟩
  · unfold basic_rest
    simp only []
    by_cases h40 : (pyStrip r).length > 40
    · rw [if_pos h40, if_pos h40, foldl_cond_count, foldl_cond_count]
      by_cases hkw : (KEYWORDS.any fun kw => strContains r.toLower kw) = true
      · rw [if_pos hkw, if_pos hkw]
        have g1 : 0 + req1.length > 0 := by
          have := List.length_pos.mpr h1
          omega
        have g2 : 0 + req2.length > 0 := by
          have := List.length_pos.mpr h2
          omega
        rw [if_pos (Or.inl g1), if_pos (Or.inl g2)]
        exact ⟨rfl, rfl⟩
      · rw [if_neg hkw, if_neg hkw]
        split
        · exact ⟨rfl, rfl⟩
        · exact ⟨rfl, rfl⟩
    · rw [if_neg h40, if_neg h40]
      exact ⟨rfl, rfl⟩

theorem claim10_witness :
    (basic_analysis "جواب من" ["الف"]).is_complete =
      (basic_analysis "جواب من" ["ب", "ج"]).is_complete ∧
    (basic_analysis "جواب من" ["الف"]).feedback =
      (basic_analysis "جواب من" ["ب", "ج"]).feedback :=
  claim10_fallback_ignores_element_texts "جواب من" ["الف"] ["ب", "ج"] (by decide) (by decide)

/-- C1: in a question state, a `submit` step appends exactly the raw
user message to the current question's response list (touching no other
question's list), and when the step finalizes the question — by a
complete verdict or by forced acceptance — the stored answer is exactly
the blank-line join of all raw responses recorded for it, in submission
order; moreover on any reachable session every stored answer equals the
blank-line join of the recorded responses for its question. -/
theorem claim1_finalized_answer_is_join (cfg : Config) :
    (∀ (an : Analyzer) (ex : Extractor) (s : Session) (m : String) (s' : Session) (out : Output),
      (s.state = .ASKING_QUESTION ∨ s.state = .FOLLOWING_UP) →
      processSession cfg an ex s m = some (s', out) →
      ∃ qd, cfg.QUESTIONS.get? s.current_question_index = some qd ∧
        s'.question_responses qd.id = s.question_responses qd.id ++ [m] ∧
        (∀ q, q ≠ qd.id → s'.question_responses q = s.question_responses q) ∧
        ((s'.current_question_index = s.current_question_index ∧
          s'.answers qd.id = s.answers qd.id) ∨
         (s'.current_question_index = s.current_question_index + 1 ∧
          s'.answers qd.id =
            some (String.intercalate "\n\n" (s.question_responses qd.id ++ [m]))))) ∧
    (∀ s : Session, (cfg.QUESTIONS.map QuestionSpec.id).Nodup → Reachable cfg s →
      ∀ q a, s.answers q = some a →
        a = String.intercalate "\n\n" (s.question_responses q)) := by
  constructor
  · intro an ex s m s' out hstate h
    have hh : ∃ qd, cfg.QUESTIONS.get? s.current_question_index = some qd ∧
        s'.question_responses = appendResponse s.question_responses qd.id m ∧
        ((s'.answers = dictInsert s.answers qd.id
              (String.intercalate "\n\n" (s.question_responses qd.id ++ [m])) ∧
          s'.follow_up_count = dictErase s.follow_up_count qd.id ∧
          s'.current_question_index = s.current_question_index + 1) ∨
         (s'.answers = s.answers ∧
          s'.current_question_index = s.current_question_index ∧
          s'.follow_up_count = dictInsert s.follow_up_count qd.id
              ((s.follow_up_count qd.id).getD 0 + 1) ∧
          (s.follow_up_count qd.id).getD 0 + 1 ≤ 1)) := by
      rcases hstate with hst | hst
      · unfold processSession at h
        rw [hst] at h
        simp only [] at h
        obtain ⟨qd, hq, hr, -, -, -, hbr⟩ := hqr_cases h
        exact ⟨qd, hq, hr, hbr⟩
      · unfold processSession at h
        rw [hst] at h
        simp only [] at h
        obtain ⟨qd, hq, hr, -, -, -, hbr⟩ := hfu_cases h
        exact ⟨qd, hq, hr, hbr⟩
    obtain ⟨qd, hq, hr, hbr⟩ := hh
    refine ⟨qd, hq, ?_, ?_, ?_⟩
    · rw [hr]
      simp [appendResponse]
    · intro q hne
      rw [hr]
      simp [appendResponse, hne]
    · rcases hbr with ⟨hans, -, hidx⟩ | ⟨hans, hidx, -, -⟩
      · right
        refine ⟨hidx, ?_⟩
        rw [hans]
        simp [dictInsert]
      · left
        exact ⟨hidx, by rw [hans]⟩
  · intro s hnd hreach q a hsome
    rcases (reachable_sessionInv hnd hreach).2.2 q with h0 | h1
    · rw [h0] at hsome
      exact Option.noConfusion hsome
    · rw [h1] at hsome
      exact (Option.some.inj hsome).symm

theorem claim1_witness :
    (∃ s' out, processSession cfgW anCompleteW exW sAskW "سلام" = some (s', out) ∧
      s'.question_responses "q1" = ["سلام"]) ∧
    (∃ s2, Reachable cfgW s2 ∧ s2.answers "q1" = some "جواب" ∧
      "جواب" = String.intercalate "\n\n" (s2.question_responses "q1")) := by
  constructor
  · obtain ⟨⟨s', out⟩, hp⟩ :
        ∃ p, processSession cfgW anCompleteW exW sAskW "سلام" = some p := ⟨_, rfl⟩
    obtain ⟨qd, hq, happ, -, -⟩ :=
      (claim1_finalized_answer_is_join cfgW).1 anCompleteW exW sAskW "سلام" s' out (Or.inl rfl) hp
    have hqd : qd = ⟨"q1", "سوال اول", ["عنصر"]⟩ := by
      simpa [cfgW, sAskW, initialSession] using hq.symm
    subst hqd
    refine ⟨s', out, hp, ?_⟩
    simpa [sAskW, initialSession] using happ
  · have h1 : processSession cfgW anCompleteW exW initialSession "اسمم: آرمان" =
        some (s1W, ⟨"عالی آرمان! خوشحالم که باهات دوست شدم! 😊\n\nحالا بذار سوالات باحال رو شروع کنیم! آماده‌ای؟ 🎉\n\nسوال اول",
                    .ASKING_QUESTION, false, none⟩) := rfl
    have hreach1 : Reachable cfgW s1W := Reachable.step _ _ _ _ _ _ Reachable.init h1
    have h2 : processSession cfgW anCompleteW exW s1W "جواب" =
        some (s2W, ⟨"سوال دوم", .ASKING_QUESTION, false, none⟩) := rfl
    have hreach2 : Reachable cfgW s2W := Reachable.step _ _ _ _ _ _ hreach1 h2
    have hans : s2W.answers "q1" = some "جواب" := by decide
    exact ⟨s2W, hreach2, hans,
      (claim1_finalized_answer_is_join cfgW).2 s2W (by decide) hreach2 "q1" "جواب" hans⟩

/-- C2: on every reachable session (for a question list with distinct
ids) the follow-up counter entry of any question is never more than 1,
an entry exists only for the question the cursor currently points at,
and once a question has a stored answer its counter entry is absent. -/
theorem claim2_follow_up_counter_bound (cfg : Config) (s : Session)
    (hnd : (cfg.QUESTIONS.map QuestionSpec.id).Nodup)
    (hreach : Reachable cfg s) :
    (∀ q, s.follow_up_count q = none ∨ s.follow_up_count q = some 1) ∧
    (∀ q, s.follow_up_count q ≠ none → currentQid cfg s = some q) ∧
    (∀ q, s.answers q ≠ none → s.follow_up_count q = none) := by
  obtain ⟨hI1, hI2, -⟩ := reachable_sessionInv hnd hreach
  refine ⟨?_, ?_, ?_⟩
  · intro q
    rcases hI1 q with h0 | ⟨h1, -⟩
    · exact Or.inl h0
    · exact Or.inr h1
  · intro q hne
    rcases hI1 q with h0 | ⟨-, hc1⟩
    · exact absurd h0 hne
    · exact hc1
  · intro q hans
    rcases hI1 q with h0 | ⟨h1, hc1⟩
    · exact h0
    · exfalso
      unfold currentQid at hc1
      cases hq : cfg.QUESTIONS.get? s.current_question_index with
      | none =>
        rw [hq] at hc1
        exact Option.noConfusion hc1
      | some qd =>
        rw [hq] at hc1
        obtain ⟨hlt, hget⟩ := List.get?_eq_some.mp hq
        have hid : qd.id = q := by simpa using hc1
        have hnone := hI2 s.current_question_index hlt le_rfl
        rw [hget, hid] at hnone
        exact hans hnone

theorem claim2_witness :
    initialSession.follow_up_count "q1" = none ∨
      initialSession.follow_up_count "q1" = some 1 :=
  (claim2_follow_up_counter_bound cfgW initialSession (by decide) Reachable.init).1 "q1"

/-- C5 counterexample: a genuine run of nine `submit` calls from a
fresh session (identity, then four questions answered with an initial
reply plus one forced follow-up reply each) leaves 17 entries in
`conversation_history` — more than the 15 the claim allows. -/
theorem claim5_counterexample :
    (runMsgs cfg5W anIncompleteW exW initialSession msgs5W).map
        (fun s => s.conversation_history.length) = some 17 ∧ ¬(17 ≤ 15) := by
  exact ⟨by decide, by decide⟩

/-- C5 (amended): in a question state every consumed user message is
appended to the conversation history (which is unbounded); the
most-recent-15 window applies only to the history slice handed to the
analyzer (`recentSlice`). -/
theorem claim5_user_messages_appended_analyzer_window (cfg : Config) (an : Analyzer)
    (ex : Extractor) (s : Session) (m : String) (s' : Session) (out : Output)
    (hstate : s.state = .ASKING_QUESTION ∨ s.state = .FOLLOWING_UP)
    (h : processSession cfg an ex s m = some (s', out)) :
    (∃ rest, s'.conversation_history = (s.conversation_history ++ [⟨"user", m⟩]) ++ rest) ∧
    (∀ hist : List Msg, (recentSlice hist).length ≤ 15) := by
  refine ⟨?_, recentSlice_length_le⟩
  rcases hstate with hst | hst
  · unfold processSession at h
    rw [hst] at h
    simp only [] at h
    obtain ⟨qd, -, -, -, -, hhist, -⟩ := hqr_cases h
    exact hhist
  · unfold processSession at h
    rw [hst] at h
    simp only [] at h
    obtain ⟨qd, -, -, -, -, hhist, -⟩ := hfu_cases h
    exact hhist

theorem claim5_witness :
    ∃ s' out, processSession cfgW anIncompleteW exW sAskW "سلام" = some (s', out) ∧
      (∃ rest, s'.conversation_history =
        (sAskW.conversation_history ++ [⟨"user", "سلام"⟩]) ++ rest) := by
  obtain ⟨⟨s', out⟩, hp⟩ :
      ∃ p, processSession cfgW anIncompleteW exW sAskW "سلام" = some p := ⟨_, rfl⟩
  exact ⟨s', out, hp,
    (claim5_user_messages_appended_analyzer_window cfgW anIncompleteW exW sAskW "سلام" s' out
      (Or.inl rfl) hp).1⟩

/-- C7: a reply whose stripped length is under 30 makes the heuristic
fallback return an incomplete verdict listing the full required-element
list as missing; and in the state machine at cursor 0 with the model
unreachable (so that every analyzer call falls back to the heuristic),
such a first reply to a question with a non-empty required-element list
leaves the cursor unchanged and moves the phase to FOLLOWING_UP. -/
theorem claim7_short_reply_heuristic_follow_up :
    (∀ (r : String) (req : List String), (pyStrip r).length < 30 →
       basic_analysis r req = ⟨false, req, [], tooShortFeedback⟩) ∧
    (∀ (cfg : Config) (ex : Extractor) (s : Session) (m : String) (qd : QuestionSpec),
       s.state = .ASKING_QUESTION → s.current_question_index = 0 →
       cfg.QUESTIONS.get? 0 = some qd → qd.required_elements ≠ [] →
       s.follow_up_count qd.id = none → (pyStrip m).length < 30 →
       (processSession cfg unreachableModelAnalyzer ex s m).map
           (fun p => (p.1.state, p.1.current_question_index)) =
         some (.FOLLOWING_UP, 0)) := by
  have hA : ∀ (r : String) (req : List String), (pyStrip r).length < 30 →
      basic_analysis r req = ⟨false, req, [], tooShortFeedback⟩ := by
    intro r req hr
    unfold basic_analysis
    rw [if_pos hr]
  refine ⟨hA, ?_⟩
  intro cfg ex s m qd hst hcur hq hreq hfuc hm
  unfold processSession
  rw [hst]
  simp only []
  unfold handle_question_response
  rw [hcur, hq]
  simp only []
  simp only [unreachableModelAnalyzer]
  rw [hA m qd.required_elements hm]
  rw [if_neg (by simp)]
  rw [hfuc]
  simp only [Option.getD_none]
  rw [if_neg ?hguard]
  case hguard =>
    push_neg
    refine ⟨by omega, ?_⟩
    simpa [List.length_eq_zero] using hreq
  simp [hcur]

theorem claim7_witness :
    basic_analysis "کوتاه" ["عنصر"] = ⟨false, ["عنصر"], [], tooShortFeedback⟩ ∧
    (processSession cfgW unreachableModelAnalyzer exW sAskW "کوتاه").map
        (fun p => (p.1.state, p.1.current_question_index)) =
      some (.FOLLOWING_UP, 0) := by
  refine ⟨claim7_short_reply_heuristic_follow_up.1 "کوتاه" ["عنصر"] (by decide), ?_⟩
  exact claim7_short_reply_heuristic_follow_up.2 cfgW exW sAskW "کوتاه"
    ⟨"q1", "سوال اول", ["عنصر"]⟩ rfl rfl rfl (by decide) rfl (by decide)

/-- C4 counterexample: on a complete verdict (no second follow-up
involved, so the claim asserts identical effects) the two handlers
leave different conversation histories — `_handle_question_response`
records the next-question message, `_handle_follow_up` does not — so
they are not equivalent as functions on (session, message). -/
theorem claim4_counterexample :
    (handle_question_response cfgW anCompleteW sAskW "سلام").map
        (fun p => p.1.conversation_history) ≠
      (handle_follow_up cfgW anCompleteW sAskW "سلام").map
        (fun p => p.1.conversation_history) := by
  decide

/-- C4 (amended): the two question handlers return identical result
dicts and have identical effects on the responses, answers, follow-up
counters, cursor and identity for every session and message — they
differ only in the session's `state` field assignment and in which
branches append the emitted assistant message to the conversation
history (the forced-acceptance message template itself is the same in
both). -/
theorem claim4_handlers_agree_outside_state_history (cfg : Config) (an : Analyzer)
    (s : Session) (m : String) :
    (handle_question_response cfg an s m).map coreView =
      (handle_follow_up cfg an s m).map coreView := by
  unfold handle_question_response handle_follow_up
  cases hq : cfg.QUESTIONS.get? s.current_question_index
  · rfl
  · simp only []
    split_ifs <;>
      first
        | rfl
        | (cases hq2 : cfg.QUESTIONS.get? (s.current_question_index + 1) <;> rfl)

end Danoa
